import Mathlib

/-!
Verification development for the schema-evolution reproduction repository.

The repository consists of two example programs (src/examples/parquet.rs and
src/examples/vortex.rs) that reproduce a schema-reconciliation defect in a
query engine: two physical files disagree on the type of column "code"
(Utf8 vs Int64), a listing table is registered over both with an explicit
logical schema, and the query fails at scan time.

The schema-reconciliation core itself (schema merger, per-file expression
adapter, listing table) is an external engine subsystem; it is modelled here
from the specification (sections 3, 4.2, 4.3, 4.4 and 7 of spec.md), while
the concrete scenario data, the registration configuration and the control
flow of the two example mains are transcribed from the Rust sources.
-/

namespace SchemaEvo

/-- Type tags for column types, as in the spec data model (TypeTag). -/
inductive TypeTag where
  | int8
  | int16
  | int32
  | int64
  | float32
  | float64
  | utf8
  | boolean
  | date32
deriving DecidableEq, Repr

/-- Cell values flowing through row batches.  Fixed-width integers and
date32 carry an Int, strings a String; vNull is the logical null used by
the null-fill adapter. -/
inductive Value where
  | vInt : Int → Value
  | vStr : String → Value
  | vBool : Bool → Value
  | vNull
deriving DecidableEq, Repr

/-- Column descriptor: name, logical type and nullability (spec section 3). -/
structure Field where
  name : String
  dtype : TypeTag
  nullable : Bool
deriving DecidableEq, Repr

/-- A schema is an ordered sequence of column descriptors (spec section 3). -/
abbrev Schema := List Field

/-- One physical file: its path, its embedded physical schema, and its rows. -/
structure PhysicalFile where
  path : String
  schema : Schema
  rows : List (List Value)
deriving DecidableEq, Repr

/-- Widening rank of fixed-width integer types; none for non-integers. -/
def intRank : TypeTag → Option Nat
  | .int8 => some 0
  | .int16 => some 1
  | .int32 => some 2
  | .int64 => some 3
  | _ => none

/-- Widening rank of floating types; none for non-floats. -/
def floatRank : TypeTag → Option Nat
  | .float32 => some 0
  | .float64 => some 1
  | _ => none

/-- Whether a type tag is a fixed-width integer type. -/
def isFixedInt (t : TypeTag) : Bool := (intRank t).isSome

/-- Modelled from the spec: the adapter's allowed-cast table (spec 4.3),
which is not part of this repository.  It admits numeric widening (within
the integer family and within the float family) and casts of non-integer,
non-string types to string ("any-type-to-string"), while excluding
text-to-fixed-width-integer and fixed-width-integer-to-text, the pair the
repository reproduces. -/
def allowedCast (src dst : TypeTag) : Bool :=
  (match intRank src, intRank dst with
   | some a, some b => a < b
   | _, _ => false)
  ||
  (match floatRank src, floatRank dst with
   | some a, some b => a < b
   | _, _ => false)
  ||
  (dst == TypeTag.utf8 && src != TypeTag.utf8 && !(isFixedInt src))

/-- Modelled from the spec: two declared types for the same column name are
compatible when they are equal or related by the allowed-cast table
(spec section 3, type-compatibility for a column). -/
def typeCompatible (a b : TypeTag) : Bool :=
  a == b || allowedCast a b || allowedCast b a

/-- First declared type for a column name in a schema, if any. -/
def lookupType : Schema → String → Option TypeTag
  | [], _ => none
  | f :: rest, n => if f.name == n then some f.dtype else lookupType rest n

/-- Error taxonomy of the engine core (spec section 7): an eager merge
conflict carrying the column, both types and the file set, and a lazy
scan-time unreconcilable error carrying the column, the logical type, the
physical type and the offending file. -/
inductive Error where
  | conflict : String → TypeTag → TypeTag → List String → Error
  | unreconcilable : String → TypeTag → TypeTag → String → Error
deriving DecidableEq, Repr

/-- Modelled from the spec: one step of the schema merger (spec 4.2), not
part of this repository.  Fold one physical schema into the accumulated
logical schema: a first-seen column name records its type; a later
occurrence must be type-compatible with the recorded type, else the
conflicting column and both types are reported. -/
def mergeInto : Schema → List Field → Except (String × TypeTag × TypeTag) Schema
  | acc, [] => .ok acc
  | acc, f :: rest =>
    match lookupType acc f.name with
    | none => mergeInto (acc ++ [f]) rest
    | some t0 =>
      if typeCompatible t0 f.dtype then mergeInto acc rest
      else .error (f.name, t0, f.dtype)

/-- Modelled from the spec: merge all file schemas in listing order (4.2). -/
def mergeAll : Schema → List PhysicalFile → Except (String × TypeTag × TypeTag) Schema
  | acc, [] => .ok acc
  | acc, f :: rest =>
    match mergeInto acc f.schema with
    | .ok acc2 => mergeAll acc2 rest
    | .error e => .error e

/-- Modelled from the spec: the schema merger entry point (spec 4.2),
raising Error.conflict with the column, both types and the file set. -/
def merge (files : List PhysicalFile) : Except Error Schema :=
  match mergeAll [] files with
  | .ok s => .ok s
  | .error (c, ta, tb) => .error (.conflict c ta tb (files.map (·.path)))

/-- Per (logical column, physical file) adapter plan entry (spec section 3):
direct physical column reference, cast, or constant null fill. -/
inductive ColumnPlan where
  | direct : Nat → ColumnPlan
  | cast : Nat → TypeTag → TypeTag → ColumnPlan
  | nullFill : TypeTag → ColumnPlan
deriving DecidableEq, Repr

/-- Index and declared type of the first physical column with a name. -/
def findFieldIdx : Schema → String → Option (Nat × TypeTag)
  | [], _ => none
  | f :: rest, n =>
    if f.name == n then some (0, f.dtype)
    else (findFieldIdx rest n).map (fun p => (p.1 + 1, p.2))

/-- Modelled from the spec: the per-column rule of the per-file expression
adapter (spec 4.3), not part of this repository.  Absent: null fill.
Present with identical type: direct.  Present with an allowed cast:
cast physical-to-logical.  Otherwise Error.unreconcilable with the column,
the logical type, the physical type and the file. -/
def buildCol (physical : Schema) (file : String) (fld : Field) : Except Error ColumnPlan :=
  match findFieldIdx physical fld.name with
  | none => .ok (.nullFill fld.dtype)
  | some (i, tp) =>
    if tp == fld.dtype then .ok (.direct i)
    else if allowedCast tp fld.dtype then .ok (.cast i tp fld.dtype)
    else .error (.unreconcilable fld.name fld.dtype tp file)

/-- Modelled from the spec: build the adapter plan for every logical column
in order, stopping at the first unreconcilable column (spec 4.3). -/
def buildPlans (physical : Schema) (file : String) : List Field → Except Error (List ColumnPlan)
  | [] => .ok []
  | fld :: rest =>
    match buildCol physical file fld with
    | .error e => .error e
    | .ok p =>
      match buildPlans physical file rest with
      | .error e => .error e
      | .ok ps => .ok (p :: ps)

/-- Modelled from the spec: the per-file expression adapter entry point
(spec 4.3): build(logical, physical) for one file. -/
def build (logical physical : Schema) (file : String) : Except Error (List ColumnPlan) :=
  buildPlans physical file logical

/-- Render a value as a string for an allowed to-string cast. -/
def valueToString : Value → Value
  | .vInt i => .vStr (toString i)
  | .vStr s => .vStr s
  | .vBool b => .vStr (cond b ("true") ("false"))
  | .vNull => .vNull

/-- Apply an allowed cast to one cell: numeric widening is the identity on
the carried integer, to-string renders the value; null stays null. -/
def castValue (dst : TypeTag) (v : Value) : Value :=
  if dst == TypeTag.utf8 then valueToString v else v

/-- Apply one column plan entry to one physical row. -/
def applyPlanCol (row : List Value) : ColumnPlan → Value
  | .direct i => row.getD i .vNull
  | .cast i _ dst => castValue dst (row.getD i .vNull)
  | .nullFill _ => .vNull

/-- Align one physical row to the logical schema via the adapter plan. -/
def applyPlan (plan : List ColumnPlan) (row : List Value) : List Value :=
  plan.map (applyPlanCol row)

/-- A registered listing table: the logical schema and the file list in
stable listing order (spec 4.4). -/
structure Table where
  logicalSchema : Schema
  files : List PhysicalFile
deriving DecidableEq, Repr

/-- Modelled from the spec: listing-table registration (spec 4.4), not part
of this repository.  With an explicit logical schema the table is created
as-is, with no eager validation; without one the merger runs eagerly and a
conflict prevents the table from being created. -/
def register (files : List PhysicalFile) (explicit : Option Schema) : Except Error Table :=
  match explicit with
  | some s => .ok { logicalSchema := s, files := files }
  | none =>
    match merge files with
    | .ok s => .ok { logicalSchema := s, files := files }
    | .error e => .error e

/-- Scan one file: build its adapter plan lazily and align its rows. -/
def scanFile (logical : Schema) (f : PhysicalFile) : Except Error (List (List Value)) :=
  match build logical f.schema f.path with
  | .error e => .error e
  | .ok plan => .ok (f.rows.map (applyPlan plan))

/-- Modelled from the spec: scan the files in listing order; the first
file whose adapter plan is unreconcilable fails the whole scan with that
error (spec 4.4), an explicit failed state distinct from any row list. -/
def scanGo (logical : Schema) : List PhysicalFile → Except Error (List (List Value))
  | [] => .ok []
  | f :: rest =>
    match scanFile logical f with
    | .error e => .error e
    | .ok rs =>
      match scanGo logical rest with
      | .error e => .error e
      | .ok more => .ok (rs ++ more)

/-- Modelled from the spec: the full scan of a listing table (spec 4.4). -/
def scan (t : Table) : Except Error (List (List Value)) :=
  scanGo t.logicalSchema t.files

/-- Modelled from the spec: a scan under partition elimination (spec 4.3
design rationale): only the files the predicate keeps are touched. -/
def scanFiltered (t : Table) (touch : String → Bool) : Except Error (List (List Value)) :=
  scanGo t.logicalSchema (t.files.filter (fun f => touch f.path))

/-- Sort key for ORDER BY id: the first cell of a row, as an integer. -/
def rowKey (row : List Value) : Int :=
  match row.getD 0 .vNull with
  | .vInt i => i
  | _ => 0

/-- Insert a row into a list sorted by rowKey. -/
def insertRow (r : List Value) : List (List Value) → List (List Value)
  | [] => [r]
  | x :: xs => if rowKey r ≤ rowKey x then r :: x :: xs else x :: insertRow r xs

/-- Insertion sort of rows by rowKey (the external ORDER BY collaborator). -/
def sortRows : List (List Value) → List (List Value)
  | [] => []
  | r :: rs => insertRow r (sortRows rs)

/-- The query SELECT * FROM t ORDER BY id of both example programs: scan
the table, then sort the rows by the id column (column 0). -/
def queryOrderById (t : Table) : Except Error (List (List Value)) :=
  match scan t with
  | .error e => .error e
  | .ok rows => .ok (sortRows rows)

/-- Boolean success test for an Except result. -/
def okB : Except Error α → Bool
  | .ok _ => true
  | .error _ => false

namespace ParquetExample

/-- Schema of the first parquet file (parquet.rs lines 29-33): id Int64,
code Utf8, value Int64, all non-nullable. -/
def schemaWithStringCode : Schema :=
  [⟨"id", .int64, false⟩, ⟨"code", .utf8, false⟩, ⟨"value", .int64, false⟩]

/-- Schema of the second parquet file (parquet.rs lines 52-56): id Int64,
code Int64, value Int64, all non-nullable. -/
def schemaWithIntCode : Schema :=
  [⟨"id", .int64, false⟩, ⟨"code", .int64, false⟩, ⟨"value", .int64, false⟩]

/-- Rows of the first parquet file (parquet.rs lines 35-42). -/
def rowsWithStringCode : List (List Value) :=
  [[.vInt 1, .vStr ("A100"), .vInt 100],
   [.vInt 2, .vStr ("B200"), .vInt 200],
   [.vInt 3, .vStr ("C300"), .vInt 300]]

/-- Rows of the second parquet file (parquet.rs lines 58-65). -/
def rowsWithIntCode : List (List Value) :=
  [[.vInt 4, .vInt 400, .vInt 400],
   [.vInt 5, .vInt 500, .vInt 500],
   [.vInt 6, .vInt 600, .vInt 600]]

/-- Path of the first written file (parquet.rs line 45). -/
def file1Path : String := "data_utf8.parquet"

/-- Path of the second written file (parquet.rs line 67). -/
def file2Path : String := "data_int64.parquet"

/-- The first physical file as written by write_parquet_file. -/
def file1 : PhysicalFile := ⟨file1Path, schemaWithStringCode, rowsWithStringCode⟩

/-- The second physical file as written by write_parquet_file. -/
def file2 : PhysicalFile := ⟨file2Path, schemaWithIntCode, rowsWithIntCode⟩

/-- The explicit schema supplied to the listing-table config
(parquet.rs line 77): the Utf8 schema of file 1. -/
def explicitSchema : Schema := schemaWithStringCode

/-- The table name used at registration (parquet.rs line 81). -/
def tableName : String := "test_data"

/-- The SQL text of the query (parquet.rs line 84). -/
def queryText : String := "SELECT * FROM test_data ORDER BY id"

/-- The expression adapter factory set on the config (parquet.rs line 78). -/
def adapterFactory : String := "DefaultPhysicalExprAdapterFactory"

/-- The file format backend of this example (parquet.rs line 73). -/
def formatName : String := "ParquetFormat"

end ParquetExample

namespace VortexExample

/-- Schema of the first vortex file (vortex.rs lines 35-39): id Int64,
code Utf8, value Int64, all non-nullable. -/
def schemaWithStringCode : Schema :=
  [⟨"id", .int64, false⟩, ⟨"code", .utf8, false⟩, ⟨"value", .int64, false⟩]

/-- Schema of the second vortex file (vortex.rs lines 60-64): id Int64,
code Int64, value Int64, all non-nullable. -/
def schemaWithIntCode : Schema :=
  [⟨"id", .int64, false⟩, ⟨"code", .int64, false⟩, ⟨"value", .int64, false⟩]

/-- Rows of the first vortex file (vortex.rs lines 41-48). -/
def rowsWithStringCode : List (List Value) :=
  [[.vInt 1, .vStr ("A100"), .vInt 100],
   [.vInt 2, .vStr ("B200"), .vInt 200],
   [.vInt 3, .vStr ("C300"), .vInt 300]]

/-- Rows of the second vortex file (vortex.rs lines 66-73). -/
def rowsWithIntCode : List (List Value) :=
  [[.vInt 4, .vInt 400, .vInt 400],
   [.vInt 5, .vInt 500, .vInt 500],
   [.vInt 6, .vInt 600, .vInt 600]]

/-- Path of the first written file (vortex.rs line 51). -/
def file1Path : String := "data_utf8.vortex"

/-- Path of the second written file (vortex.rs line 76). -/
def file2Path : String := "data_int64.vortex"

/-- The explicit schema supplied to the listing-table config
(vortex.rs line 90): the Utf8 schema of file 1. -/
def explicitSchema : Schema := schemaWithStringCode

/-- The table name used at registration (vortex.rs line 94). -/
def tableName : String := "test_data"

/-- The SQL text of the query (vortex.rs line 97). -/
def queryText : String := "SELECT * FROM test_data ORDER BY id"

/-- The expression adapter factory set on the config (vortex.rs line 91). -/
def adapterFactory : String := "DefaultPhysicalExprAdapterFactory"

/-- The file format backend of this example (vortex.rs line 86). -/
def formatName : String := "VortexFormat"

end VortexExample

/-- Outcomes of the fallible effects of an example main: writing the two
files, registering the table, and running the query (sql + show).  The
error type is the printed error text. -/
structure ExampleEnv where
  writeFile1 : Except String Unit
  writeFile2 : Except String Unit
  registerTable : Except String Unit
  queryResult : Except String Unit
deriving Repr

/-- The control flow of main in both example programs (parquet.rs lines
22-98, vortex.rs lines 26-111): the three setup steps propagate their
errors with the question-mark operator, then the query result is only
matched on and printed, and main returns Ok in both branches.  The payload
of the ok result is the line printed for the query outcome. -/
def runExampleMain (env : ExampleEnv) : Except String String :=
  match env.writeFile1 with
  | .error e => .error e
  | .ok _ =>
    match env.writeFile2 with
    | .error e => .error e
    | .ok _ =>
      match env.registerTable with
      | .error e => .error e
      | .ok _ =>
        match env.queryResult with
        | .ok _ => .ok ("Query succeeded unexpectedly")
        | .error e => .ok ("Schema evolution error occurred:\n" ++ e)

/-- Boolean success test for an Except String result. -/
def okS : Except String α → Bool
  | .ok _ => true
  | .error _ => false

/-- The listing table of the reproduction scenario, as registered with the
explicit Utf8 schema over both parquet files in listing order. -/
def reproTable : Table :=
  { logicalSchema := ParquetExample.explicitSchema
    files := [ParquetExample.file1, ParquetExample.file2] }

/-! Helper lemmas about the engine model. -/

theorem getq_map (f : α → β) (l : List α) (n : Nat) :
    (l.map f).get? n = (l.get? n).map f := by
  induction l generalizing n with
  | nil => cases n <;> rfl
  | cons a l ih => cases n <;> simp [List.get?, ih]

/-- buildCol fails only with an unreconcilable error naming the file. -/
theorem buildCol_error_shape (physical : Schema) (file : String) (fld : Field) (e : Error)
    (h : buildCol physical file fld = .error e) :
    ∃ c tl tp, e = .unreconcilable c tl tp file := by
  unfold buildCol at h
  split at h
  · exact absurd h (by simp)
  · split at h
    · exact absurd h (by simp)
    · split at h
      · exact absurd h (by simp)
      · exact ⟨_, _, _, (Except.error.injEq _ _).mp h.symm⟩

/-- A failing buildPlans run fails with the error of some column. -/
theorem buildPlans_error_mem (physical : Schema) (file : String) (l : List Field) (e : Error)
    (h : buildPlans physical file l = .error e) :
    ∃ fld ∈ l, buildCol physical file fld = .error e := by
  induction l with
  | nil => exact absurd h (by simp [buildPlans])
  | cons fld rest ih =>
    unfold buildPlans at h
    cases hc : buildCol physical file fld with
    | error e2 =>
      rw [hc] at h
      exact ⟨fld, by simp, by rw [hc, (Except.error.injEq _ _).mp h]⟩
    | ok p =>
      rw [hc] at h
      cases hr : buildPlans physical file rest with
      | error e2 =>
        rw [hr] at h
        obtain ⟨g, hg, hge⟩ := ih (by rw [hr, (Except.error.injEq _ _).mp h])
        exact ⟨g, by simp [hg], hge⟩
      | ok ps => rw [hr] at h; exact absurd h (by simp)

/-- A failing build fails with an unreconcilable error naming some column,
its logical and physical types, and the file. -/
theorem build_error_shape (logical physical : Schema) (file : String) (e : Error)
    (h : build logical physical file = .error e) :
    ∃ c tl tp, e = .unreconcilable c tl tp file := by
  obtain ⟨fld, _, hfe⟩ := buildPlans_error_mem physical file logical e h
  exact buildCol_error_shape physical file fld e hfe

/-- scanFile fails exactly when the adapter build for the file fails,
with the same error. -/
theorem scanFile_error_iff (logical : Schema) (f : PhysicalFile) (e : Error) :
    scanFile logical f = .error e ↔ build logical f.schema f.path = .error e := by
  unfold scanFile
  cases build logical f.schema f.path <;> simp

/-- scanFile succeeds exactly when the adapter build succeeds. -/
theorem okB_scanFile (logical : Schema) (f : PhysicalFile) :
    okB (scanFile logical f) = okB (build logical f.schema f.path) := by
  unfold scanFile
  cases build logical f.schema f.path <;> rfl

/-- If some file of the list fails to scan, the whole fold fails with the
error of a file in the list. -/
theorem scanGo_fail (logical : Schema) (fs : List PhysicalFile)
    (h : ∃ f ∈ fs, okB (scanFile logical f) = false) :
    ∃ g ∈ fs, ∃ e, scanFile logical g = .error e ∧ scanGo logical fs = .error e := by
  induction fs with
  | nil => simp at h
  | cons x rest ih =>
    cases hx : scanFile logical x with
    | error e => exact ⟨x, by simp, e, hx, by unfold scanGo; rw [hx]⟩
    | ok rs =>
      obtain ⟨f, hf, hfb⟩ := h
      rcases List.mem_cons.mp hf with hfx | hfr
      · rw [hfx, hx] at hfb; exact absurd hfb (by simp [okB])
      · obtain ⟨g, hg, e, hge, hrest⟩ := ih ⟨f, hfr, hfb⟩
        exact ⟨g, by simp [hg], e, hge, by unfold scanGo; rw [hx, hrest]⟩

/-- If every file of the list scans successfully, so does the fold. -/
theorem scanGo_ok (logical : Schema) (fs : List PhysicalFile)
    (h : ∀ f ∈ fs, okB (scanFile logical f) = true) :
    okB (scanGo logical fs) = true := by
  induction fs with
  | nil => rfl
  | cons x rest ih =>
    have hx := h x (by simp)
    cases hxe : scanFile logical x with
    | error e => rw [hxe] at hx; exact absurd hx (by simp [okB])
    | ok rs =>
      have hr := ih (fun f hf => h f (by simp [hf]))
      unfold scanGo
      rw [hxe]
      cases hre : scanGo logical rest with
      | error e => rw [hre] at hr; exact absurd hr (by simp [okB])
      | ok more => rfl

/-- The fold over the file list surfaces the error of the first failing
file in listing order. -/
theorem scanGo_first_error (logical : Schema) (fs : List PhysicalFile) (i : Nat)
    (f : PhysicalFile) (e : Error)
    (hf : fs.get? i = some f)
    (hpre : ∀ k g, k < i → fs.get? k = some g → okB (scanFile logical g) = true)
    (he : scanFile logical f = .error e) :
    scanGo logical fs = .error e := by
  induction fs generalizing i with
  | nil => cases i <;> exact absurd hf (by simp)
  | cons x rest ih =>
    cases i with
    | zero =>
      have hx : x = f := by simpa using hf
      unfold scanGo
      rw [hx, he]
    | succ n =>
      have hx := hpre 0 x (Nat.succ_pos n) rfl
      cases hxe : scanFile logical x with
      | error e2 => rw [hxe] at hx; exact absurd hx (by simp [okB])
      | ok rs =>
        have hrest : scanGo logical rest = .error e := by
          refine ih n (by simpa using hf) ?_
          intro k g hk hg
          exact hpre (k + 1) g (Nat.succ_lt_succ hk) (by simpa using hg)
        unfold scanGo
        rw [hxe, hrest]

/-- A successful buildPlans run assigns to logical column j exactly the
plan entry that buildCol produces for it. -/
theorem buildPlans_get (physical : Schema) (file : String) (l : List Field)
    (plan : List ColumnPlan) (j : Nat) (fld : Field)
    (hok : buildPlans physical file l = .ok plan) (hj : l.get? j = some fld) :
    ∃ p, plan.get? j = some p ∧ buildCol physical file fld = .ok p := by
  induction l generalizing j plan with
  | nil => cases j <;> exact absurd hj (by simp)
  | cons x rest ih =>
    unfold buildPlans at hok
    cases hc : buildCol physical file x with
    | error e => rw [hc] at hok; exact absurd hok (by simp)
    | ok p =>
      rw [hc] at hok
      cases hr : buildPlans physical file rest with
      | error e => rw [hr] at hok; exact absurd hok (by simp)
      | ok ps =>
        rw [hr] at hok
        have hplan : plan = p :: ps := ((Except.ok.injEq _ _).mp hok).symm
        subst hplan
        cases j with
        | zero =>
          have hx : x = fld := by simpa using hj
          exact ⟨p, rfl, by rw [← hx, hc]⟩
        | succ n =>
          obtain ⟨q, hq, hqe⟩ := ih ps n hr (by simpa using hj)
          exact ⟨q, by simpa using hq, hqe⟩

/-- buildPlans surfaces the error of column j when all columns before j
reconcile and column j does not. -/
theorem buildPlans_first_error (physical : Schema) (file : String) (l : List Field)
    (j : Nat) (fld : Field) (e : Error)
    (hj : l.get? j = some fld)
    (hpre : ∀ k g, k < j → l.get? k = some g → okB (buildCol physical file g) = true)
    (he : buildCol physical file fld = .error e) :
    buildPlans physical file l = .error e := by
  induction l generalizing j with
  | nil => cases j <;> exact absurd hj (by simp)
  | cons x rest ih =>
    cases j with
    | zero =>
      have hx : x = fld := by simpa using hj
      unfold buildPlans
      rw [hx, he]
    | succ n =>
      have hx := hpre 0 x (Nat.succ_pos n) rfl
      cases hxe : buildCol physical file x with
      | error e2 => rw [hxe] at hx; exact absurd hx (by simp [okB])
      | ok p =>
        have hrest : buildPlans physical file rest = .error e := by
          refine ih n (by simpa using hj) ?_
          intro k g hk hg
          exact hpre (k + 1) g (Nat.succ_lt_succ hk) (by simpa using hg)
        unfold buildPlans
        rw [hxe, hrest]

/-- Unfolding lemma: lookupType on an empty schema. -/
theorem lookupType_nil (c : String) : lookupType [] c = none := rfl

/-- Unfolding lemma: lookupType on a cons cell. -/
theorem lookupType_cons (f : Field) (rest : Schema) (c : String) :
    lookupType (f :: rest) c =
      if f.name == c then some f.dtype else lookupType rest c := rfl

/-- Unfolding lemma: mergeInto on a cons cell. -/
theorem mergeInto_cons (acc : Schema) (f : Field) (rest : List Field) :
    mergeInto acc (f :: rest) =
      match lookupType acc f.name with
      | none => mergeInto (acc ++ [f]) rest
      | some t0 =>
        if typeCompatible t0 f.dtype then mergeInto acc rest
        else .error (f.name, t0, f.dtype) := rfl

/-- A column found in the prefix of an appended schema is found unchanged. -/
theorem lookupType_append_some (acc l2 : Schema) (c : String) (t : TypeTag)
    (h : lookupType acc c = some t) : lookupType (acc ++ l2) c = some t := by
  induction acc with
  | nil => exact absurd h (by simp [lookupType_nil])
  | cons f rest ih =>
    rw [lookupType_cons] at h
    rw [List.cons_append, lookupType_cons]
    by_cases hn : (f.name == c) = true
    · rw [if_pos hn] at h; rw [if_pos hn]; exact h
    · rw [if_neg hn] at h; rw [if_neg hn]; exact ih h

/-- Appending one field to a schema that lacks a column name resolves the
name to that field alone. -/
theorem lookupType_append_none (acc : Schema) (f : Field) (c : String)
    (h : lookupType acc c = none) :
    lookupType (acc ++ [f]) c = if f.name == c then some f.dtype else none := by
  induction acc with
  | nil => rfl
  | cons g rest ih =>
    rw [lookupType_cons] at h
    rw [List.cons_append, lookupType_cons]
    by_cases hn : (g.name == c) = true
    · rw [if_pos hn] at h; exact absurd h (by simp)
    · rw [if_neg hn] at h; rw [if_neg hn]; exact ih h

/-- The merger never changes the recorded type of a column already present
in the accumulated logical schema. -/
theorem mergeInto_preserves (s : List Field) (acc acc2 : Schema) (c : String) (t0 : TypeTag)
    (h : mergeInto acc s = .ok acc2) (hc : lookupType acc c = some t0) :
    lookupType acc2 c = some t0 := by
  induction s generalizing acc with
  | nil =>
    have hae : acc = acc2 := by simpa [mergeInto] using h
    rw [← hae]; exact hc
  | cons f rest ih =>
    rw [mergeInto_cons] at h
    cases hl : lookupType acc f.name with
    | none =>
      rw [hl] at h
      have h2 : mergeInto (acc ++ [f]) rest = Except.ok acc2 := h
      exact ih (acc ++ [f]) h2 (lookupType_append_some acc [f] c t0 hc)
    | some t1 =>
      rw [hl] at h
      have h2 : (if typeCompatible t1 f.dtype then mergeInto acc rest
                 else Except.error (f.name, t1, f.dtype)) = Except.ok acc2 := h
      by_cases hcomp : typeCompatible t1 f.dtype = true
      · rw [if_pos hcomp] at h2; exact ih acc h2 hc
      · rw [if_neg hcomp] at h2; exact absurd h2 (by simp)

/-- A column absent from the accumulator and declared in the folded schema
enters the logical schema with its first declared type. -/
theorem mergeInto_first (s : List Field) (acc acc2 : Schema) (c : String) (t : TypeTag)
    (h : mergeInto acc s = .ok acc2) (hnone : lookupType acc c = none)
    (hs : lookupType s c = some t) :
    lookupType acc2 c = some t := by
  induction s generalizing acc with
  | nil => exact absurd hs (by simp [lookupType_nil])
  | cons f rest ih =>
    rw [mergeInto_cons] at h
    rw [lookupType_cons] at hs
    by_cases hn : (f.name == c) = true
    · have hfc : f.name = c := by simpa using hn
      have ht : t = f.dtype := by
        rw [if_pos hn] at hs
        exact ((Option.some.injEq _ _).mp hs).symm
      have hlf : lookupType acc f.name = none := by rw [hfc]; exact hnone
      rw [hlf] at h
      have h2 : mergeInto (acc ++ [f]) rest = Except.ok acc2 := h
      have hacc : lookupType (acc ++ [f]) c = some f.dtype := by
        rw [lookupType_append_none acc f c hnone, if_pos hn]
      rw [ht]
      exact mergeInto_preserves rest (acc ++ [f]) acc2 c f.dtype h2 hacc
    · have hs2 : lookupType rest c = some t := by rw [if_neg hn] at hs; exact hs
      cases hl : lookupType acc f.name with
      | none =>
        rw [hl] at h
        have h2 : mergeInto (acc ++ [f]) rest = Except.ok acc2 := h
        have hnone2 : lookupType (acc ++ [f]) c = none := by
          rw [lookupType_append_none acc f c hnone, if_neg hn]
        exact ih (acc ++ [f]) h2 hnone2 hs2
      | some t1 =>
        rw [hl] at h
        have h2 : (if typeCompatible t1 f.dtype then mergeInto acc rest
                   else Except.error (f.name, t1, f.dtype)) = Except.ok acc2 := h
        by_cases hcomp : typeCompatible t1 f.dtype = true
        · rw [if_pos hcomp] at h2; exact ih acc h2 hnone hs2
        · rw [if_neg hcomp] at h2; exact absurd h2 (by simp)

/-- A successful merge step checked every declared occurrence of an already
recorded column against the recorded type. -/
theorem mergeInto_checks (s : List Field) (acc acc2 : Schema) (c : String) (t0 t : TypeTag)
    (h : mergeInto acc s = .ok acc2) (hacc : lookupType acc c = some t0)
    (hs : lookupType s c = some t) :
    typeCompatible t0 t = true := by
  induction s generalizing acc with
  | nil => exact absurd hs (by simp [lookupType_nil])
  | cons f rest ih =>
    rw [mergeInto_cons] at h
    rw [lookupType_cons] at hs
    by_cases hn : (f.name == c) = true
    · have hfc : f.name = c := by simpa using hn
      have ht : t = f.dtype := by
        rw [if_pos hn] at hs
        exact ((Option.some.injEq _ _).mp hs).symm
      have hlf : lookupType acc f.name = some t0 := by rw [hfc]; exact hacc
      rw [hlf] at h
      have h2 : (if typeCompatible t0 f.dtype then mergeInto acc rest
                 else Except.error (f.name, t0, f.dtype)) = Except.ok acc2 := h
      by_cases hcomp : typeCompatible t0 f.dtype = true
      · rw [ht]; exact hcomp
      · rw [if_neg hcomp] at h2; exact absurd h2 (by simp)
    · have hs2 : lookupType rest c = some t := by rw [if_neg hn] at hs; exact hs
      cases hl : lookupType acc f.name with
      | none =>
        rw [hl] at h
        have h2 : mergeInto (acc ++ [f]) rest = Except.ok acc2 := h
        exact ih (acc ++ [f]) h2 (lookupType_append_some acc [f] c t0 hacc) hs2
      | some t1 =>
        rw [hl] at h
        have h2 : (if typeCompatible t1 f.dtype then mergeInto acc rest
                   else Except.error (f.name, t1, f.dtype)) = Except.ok acc2 := h
        by_cases hcomp : typeCompatible t1 f.dtype = true
        · rw [if_pos hcomp] at h2; exact ih acc h2 hacc hs2
        · rw [if_neg hcomp] at h2; exact absurd h2 (by simp)

/-- Unfolding lemma: mergeAll on a cons cell. -/
theorem mergeAll_cons (acc : Schema) (f : PhysicalFile) (rest : List PhysicalFile) :
    mergeAll acc (f :: rest) =
      match mergeInto acc f.schema with
      | .ok acc2 => mergeAll acc2 rest
      | .error e => .error e := rfl

/-! The claims. -/

/-- C1: in the literal two-file scenario of the reproduction scripts
(file1 id:Int64, code:Utf8, value:Int64 with rows (1,A100,100), (2,B200,200),
(3,C300,300); file2 id:Int64, code:Int64, value:Int64 with rows (4,400,400),
(5,500,500), (6,600,600)), registering the table with the explicit logical
schema succeeds with no eager validation, and the query
SELECT * FROM t ORDER BY id over both files fails with an Unreconcilable
error naming the column code, both types (Utf8 and Int64) and the offending
file, rather than returning six rows. -/
theorem explicit_schema_registration_then_scan_fails :
    register [ParquetExample.file1, ParquetExample.file2]
      (some ParquetExample.explicitSchema) = .ok reproTable ∧
    queryOrderById reproTable =
      .error (.unreconcilable ("code") .utf8 .int64 ParquetExample.file2Path) ∧
    ∀ rows, queryOrderById reproTable ≠ .ok rows := by
  refine ⟨rfl, rfl, ?_⟩
  intro rows h
  have h2 : (Except.error
      (Error.unreconcilable ("code") TypeTag.utf8 TypeTag.int64 ParquetExample.file2Path) :
      Except Error (List (List Value))) = Except.ok rows := h
  exact Except.noConfusion h2

/-- C2: for every scan of a listing table, if building the adapter plan for
some file is unreconcilable, the whole scan terminates in an explicit error
state (never an ok row list) whose error identifies the offending file, the
column and both types. -/
theorem scan_fails_loudly_on_unreconcilable_file (t : Table) (f : PhysicalFile)
    (hmem : f ∈ t.files)
    (hbad : okB (build t.logicalSchema f.schema f.path) = false) :
    ∃ g ∈ t.files, ∃ c tl tp,
      build t.logicalSchema g.schema g.path = .error (.unreconcilable c tl tp g.path) ∧
      scan t = .error (.unreconcilable c tl tp g.path) ∧
      ∀ rows, scan t ≠ .ok rows := by
  have hsf : okB (scanFile t.logicalSchema f) = false := by
    rw [okB_scanFile]; exact hbad
  obtain ⟨g, hg, e, hge, hgo⟩ := scanGo_fail t.logicalSchema t.files ⟨f, hmem, hsf⟩
  have hb : build t.logicalSchema g.schema g.path = .error e :=
    (scanFile_error_iff _ _ _).mp hge
  obtain ⟨c, tl, tp, he⟩ := build_error_shape _ _ _ _ hb
  subst he
  refine ⟨g, hg, c, tl, tp, hb, hgo, ?_⟩
  intro rows hok
  have hok2 : scanGo t.logicalSchema t.files = .ok rows := hok
  rw [hgo] at hok2
  exact Except.noConfusion hok2

/-- C2 witness: in the reproduction table the second file is unreconcilable
and the scan fails with its attributed error. -/
theorem scan_fails_loudly_witness :
    ∃ g ∈ reproTable.files, ∃ c tl tp,
      build reproTable.logicalSchema g.schema g.path =
        .error (.unreconcilable c tl tp g.path) ∧
      scan reproTable = .error (.unreconcilable c tl tp g.path) ∧
      ∀ rows, scan reproTable ≠ .ok rows :=
  scan_fails_loudly_on_unreconcilable_file reproTable ParquetExample.file2
    (by simp [reproTable]) rfl

/-- C3: registration without an explicit logical schema over two files that
disagree on a column in a way no allowed cast bridges fails eagerly at
register with a Conflict error carrying a column, both types and the file
set, and the table is not created.  register never scans: it only merges
and stores the file list. -/
theorem merge_register_conflict_eager (fa fb : PhysicalFile) (c : String)
    (ta tb : TypeTag)
    (ha : lookupType fa.schema c = some ta)
    (hb : lookupType fb.schema c = some tb)
    (hcomp : typeCompatible ta tb = false) :
    (∃ c2 t1 t2 fs, register [fa, fb] none = .error (.conflict c2 t1 t2 fs)) ∧
    ∀ t, register [fa, fb] none ≠ .ok t := by
  have hm : ∀ s, mergeAll [] [fa, fb] ≠ .ok s := by
    intro s hok
    rw [mergeAll_cons] at hok
    cases h1 : mergeInto [] fa.schema with
    | error e => rw [h1] at hok; exact Except.noConfusion hok
    | ok acc1 =>
      rw [h1] at hok
      have hok2 : mergeAll acc1 [fb] = .ok s := hok
      rw [mergeAll_cons] at hok2
      cases h2 : mergeInto acc1 fb.schema with
      | error e => rw [h2] at hok2; exact Except.noConfusion hok2
      | ok acc2 =>
        have hfirst : lookupType acc1 c = some ta :=
          mergeInto_first fa.schema [] acc1 c ta h1 rfl ha
        have hchk : typeCompatible ta tb = true :=
          mergeInto_checks fb.schema acc1 acc2 c ta tb h2 hfirst hb
        rw [hchk] at hcomp
        exact Bool.noConfusion hcomp
  cases hma : mergeAll [] [fa, fb] with
  | ok s => exact absurd hma (hm s)
  | error e =>
    obtain ⟨c2, t1, t2⟩ := e
    have hmerge : merge [fa, fb] = .error (.conflict c2 t1 t2 ([fa.path, fb.path])) := by
      unfold merge
      rw [hma]
      rfl
    have hreg : register [fa, fb] none =
        .error (.conflict c2 t1 t2 ([fa.path, fb.path])) := by
      unfold register
      rw [hmerge]
    refine ⟨⟨c2, t1, t2, [fa.path, fb.path], hreg⟩, ?_⟩
    intro t hok
    rw [hreg] at hok
    exact Except.noConfusion hok

/-- C3 witness: the two reproduction files conflict on column code
(Utf8 vs Int64) and registration without an explicit schema fails. -/
theorem merge_register_conflict_witness :
    (∃ c2 t1 t2 fs,
       register [ParquetExample.file1, ParquetExample.file2] none =
         .error (.conflict c2 t1 t2 fs)) ∧
    ∀ t, register [ParquetExample.file1, ParquetExample.file2] none ≠ .ok t :=
  merge_register_conflict_eager ParquetExample.file1 ParquetExample.file2
    ("code") .utf8 .int64 rfl rfl rfl

/-- C4: a logical column present in the physical schema with a different
type yields a Cast plan entry when the pair is in the allowed-cast table
and an Unreconcilable error carrying the column, the logical type, the
physical type and the file when it is not (the reproduced pair, physical
Int64 for logical Utf8 code, is not). -/
theorem build_cast_or_unreconcilable (logical physical : Schema) (file : String)
    (j : Nat) (fld : Field) (i : Nat) (tp : TypeTag)
    (hj : logical.get? j = some fld)
    (hfind : findFieldIdx physical fld.name = some (i, tp))
    (hne : (tp == fld.dtype) = false) :
    (allowedCast tp fld.dtype = true →
       buildCol physical file fld = .ok (.cast i tp fld.dtype) ∧
       ∀ plan, build logical physical file = .ok plan →
         plan.get? j = some (.cast i tp fld.dtype)) ∧
    (allowedCast tp fld.dtype = false →
       buildCol physical file fld = .error (.unreconcilable fld.name fld.dtype tp file) ∧
       ((∀ k g, k < j → logical.get? k = some g →
           okB (buildCol physical file g) = true) →
         build logical physical file =
           .error (.unreconcilable fld.name fld.dtype tp file))) := by
  constructor
  · intro hcast
    have hbc : buildCol physical file fld = .ok (.cast i tp fld.dtype) := by
      unfold buildCol
      rw [hfind]
      simp [hne, hcast]
    refine ⟨hbc, ?_⟩
    intro plan hpl
    obtain ⟨p, hp, hpe⟩ := buildPlans_get physical file logical plan j fld hpl hj
    rw [hbc] at hpe
    have hpeq : ColumnPlan.cast i tp fld.dtype = p := (Except.ok.injEq _ _).mp hpe
    rw [← hpeq] at hp
    exact hp
  · intro hcast
    have hbc : buildCol physical file fld =
        .error (.unreconcilable fld.name fld.dtype tp file) := by
      unfold buildCol
      rw [hfind]
      simp [hne, hcast]
    refine ⟨hbc, ?_⟩
    intro hpre
    exact buildPlans_first_error physical file logical j fld _ hj hpre hbc

/-- C4 witness: physical Int32 for logical Int64 is an allowed widening and
yields a cast entry; the other branch holds vacuously. -/
theorem build_cast_or_unreconcilable_witness :
    (allowedCast .int32 .int64 = true →
       buildCol [⟨("a"), .int32, false⟩] ("fileA") ⟨("a"), .int64, false⟩ =
         .ok (.cast 0 .int32 .int64) ∧
       ∀ plan, build [⟨("a"), .int64, false⟩] [⟨("a"), .int32, false⟩] ("fileA") =
           .ok plan →
         plan.get? 0 = some (.cast 0 .int32 .int64)) ∧
    (allowedCast .int32 .int64 = false →
       buildCol [⟨("a"), .int32, false⟩] ("fileA") ⟨("a"), .int64, false⟩ =
         .error (.unreconcilable ("a") .int64 .int32 ("fileA")) ∧
       ((∀ k g, k < 0 → List.get? [⟨("a"), .int64, false⟩] k = some g →
           okB (buildCol [⟨("a"), .int32, false⟩] ("fileA") g) = true) →
         build [⟨("a"), .int64, false⟩] [⟨("a"), .int32, false⟩] ("fileA") =
           .error (.unreconcilable ("a") .int64 .int32 ("fileA")))) :=
  build_cast_or_unreconcilable [⟨("a"), .int64, false⟩] [⟨("a"), .int32, false⟩]
    ("fileA") 0 ⟨("a"), .int64, false⟩ 0 .int32 rfl rfl rfl

/-- C5: the reconcilability check is per file and scan-granular: a scan
that touches only files whose adapter plans build successfully succeeds,
whatever incompatible files the table also holds. -/
theorem scan_granular_failure (t : Table) (touch : String → Bool)
    (h : ∀ f ∈ t.files, touch f.path = true →
       okB (build t.logicalSchema f.schema f.path) = true) :
    okB (scanFiltered t touch) = true := by
  unfold scanFiltered
  apply scanGo_ok
  intro f hf
  have hmem := List.mem_filter.mp hf
  rw [okB_scanFile]
  exact h f hmem.1 (by simpa using hmem.2)

/-- Logical schema shared by the ten-file example table. -/
def goodFileSchema : Schema := [⟨"a", .int64, false⟩]

/-- Physical schema of the one incompatible file of the example table. -/
def badFileSchema : Schema := [⟨"a", .utf8, false⟩]

/-- A compatible file of the ten-file example table. -/
def mkGoodFile (p : String) : PhysicalFile := ⟨p, goodFileSchema, [[.vInt 7]]⟩

/-- A table with nine compatible files and one incompatible tenth file. -/
def tenFileTable : Table :=
  { logicalSchema := goodFileSchema
    files := [mkGoodFile ("f01"), mkGoodFile ("f02"), mkGoodFile ("f03"),
              mkGoodFile ("f04"), mkGoodFile ("f05"), mkGoodFile ("f06"),
              mkGoodFile ("f07"), mkGoodFile ("f08"), mkGoodFile ("f09"),
              ⟨("f10"), badFileSchema, [[.vStr ("x")]]⟩] }

/-- A partition-elimination predicate pruning the incompatible tenth file. -/
def touchNine : String → Bool := fun p => p != "f10"

/-- C5 witness: with nine compatible files and one incompatible file, the
scan that prunes the tenth succeeds while the full scan fails. -/
theorem scan_granular_failure_witness :
    okB (scanFiltered tenFileTable touchNine) = true ∧
    okB (scan tenFileTable) = false := by
  constructor
  · apply scan_granular_failure
    intro f hf htouch
    fin_cases hf <;> first
      | rfl
      | exact absurd htouch (by decide)
  · rfl

/-- C6: a logical column absent from a file's physical schema always builds
to a NullFill entry (never an error), and every row the scan sources from
that file carries logical null in that column. -/
theorem missing_column_nullfill (logical physical : Schema) (file : String)
    (j : Nat) (fld : Field)
    (hj : logical.get? j = some fld)
    (habs : findFieldIdx physical fld.name = none) :
    buildCol physical file fld = .ok (.nullFill fld.dtype) ∧
    (∀ plan, build logical physical file = .ok plan →
       plan.get? j = some (.nullFill fld.dtype) ∧
       ∀ row, (applyPlan plan row).get? j = some .vNull) ∧
    (∀ (f : PhysicalFile) (out : List (List Value)), f.schema = physical →
       scanFile logical f = .ok out → ∀ r ∈ out, r.get? j = some .vNull) := by
  have hbc : ∀ fi, buildCol physical fi fld = .ok (.nullFill fld.dtype) := by
    intro fi
    unfold buildCol
    rw [habs]
  have hplan : ∀ (fi : String) plan, buildPlans physical fi logical = .ok plan →
      plan.get? j = some (.nullFill fld.dtype) ∧
      ∀ row, (applyPlan plan row).get? j = some .vNull := by
    intro fi plan hpl
    obtain ⟨p, hp, hpe⟩ := buildPlans_get physical fi logical plan j fld hpl hj
    rw [hbc fi] at hpe
    have hpeq : ColumnPlan.nullFill fld.dtype = p := (Except.ok.injEq _ _).mp hpe
    constructor
    · rw [← hpeq] at hp; exact hp
    · intro row
      unfold applyPlan
      rw [getq_map, hp, ← hpeq]
      rfl
  refine ⟨hbc file, fun plan hpl => hplan file plan hpl, ?_⟩
  intro f out hfs hsf r hr
  unfold scanFile at hsf
  cases hbuild : build logical f.schema f.path with
  | error e => rw [hbuild] at hsf; exact absurd hsf (by simp)
  | ok plan =>
    rw [hbuild] at hsf
    have hout : out = f.rows.map (applyPlan plan) := ((Except.ok.injEq _ _).mp hsf).symm
    subst hout
    obtain ⟨row, hrow, hre⟩ := List.mem_map.mp hr
    rw [← hre]
    have hb2 : buildPlans physical f.path logical = .ok plan := by
      rw [← hfs]; exact hbuild
    exact (hplan f.path plan hb2).2 row

/-- C6 witness: column b is absent from a one-column physical file and the
scan of that file yields null for b in every row. -/
theorem missing_column_nullfill_witness :
    buildCol [⟨("a"), .int64, false⟩] ("fileB") ⟨("b"), .utf8, false⟩ =
      .ok (.nullFill .utf8) ∧
    (∀ plan, build [⟨("a"), .int64, false⟩, ⟨("b"), .utf8, false⟩]
        [⟨("a"), .int64, false⟩] ("fileB") = .ok plan →
       plan.get? 1 = some (.nullFill .utf8) ∧
       ∀ row, (applyPlan plan row).get? 1 = some .vNull) ∧
    (∀ (f : PhysicalFile) (out : List (List Value)),
       f.schema = [⟨("a"), .int64, false⟩] →
       scanFile [⟨("a"), .int64, false⟩, ⟨("b"), .utf8, false⟩] f = .ok out →
       ∀ r ∈ out, r.get? 1 = some .vNull) :=
  missing_column_nullfill [⟨("a"), .int64, false⟩, ⟨("b"), .utf8, false⟩]
    [⟨("a"), .int64, false⟩] ("fileB") 1 ⟨("b"), .utf8, false⟩ rfl rfl

/-- C7: a shared column whose declared physical type is identical to its
logical type builds to a Direct entry, and the stream reproduces the
physical values of that column unchanged. -/
theorem identical_type_direct (logical physical : Schema) (file : String)
    (j : Nat) (fld : Field) (i : Nat)
    (hj : logical.get? j = some fld)
    (hfind : findFieldIdx physical fld.name = some (i, fld.dtype)) :
    buildCol physical file fld = .ok (.direct i) ∧
    ∀ plan, build logical physical file = .ok plan →
      plan.get? j = some (.direct i) ∧
      ∀ row, (applyPlan plan row).get? j = some (row.getD i .vNull) := by
  have hbc : buildCol physical file fld = .ok (.direct i) := by
    unfold buildCol
    rw [hfind]
    simp
  refine ⟨hbc, ?_⟩
  intro plan hpl
  obtain ⟨p, hp, hpe⟩ := buildPlans_get physical file logical plan j fld hpl hj
  rw [hbc] at hpe
  have hpeq : ColumnPlan.direct i = p := (Except.ok.injEq _ _).mp hpe
  constructor
  · rw [← hpeq] at hp; exact hp
  · intro row
    unfold applyPlan
    rw [getq_map, hp, ← hpeq]
    rfl

/-- C7 witness: column id has type Int64 both logically and in file 1 and
its values pass through unchanged. -/
theorem identical_type_direct_witness :
    buildCol ParquetExample.schemaWithStringCode ParquetExample.file1Path
      ⟨("id"), .int64, false⟩ = .ok (.direct 0) ∧
    ∀ plan, build ParquetExample.schemaWithStringCode
        ParquetExample.schemaWithStringCode ParquetExample.file1Path = .ok plan →
      plan.get? 0 = some (.direct 0) ∧
      ∀ row, (applyPlan plan row).get? 0 = some (row.getD 0 .vNull) :=
  identical_type_direct ParquetExample.schemaWithStringCode
    ParquetExample.schemaWithStringCode ParquetExample.file1Path 0
    ⟨("id"), .int64, false⟩ 0 rfl rfl

/-- C8: the scan is a pure function of the table, so repeated scans of the
same unchanged file set agree, and when files are unreconcilable the error
surfaced is that of the first offending file in listing order, never a
different file. -/
theorem scan_first_offending_deterministic (t : Table) (i : Nat)
    (f : PhysicalFile) (e : Error)
    (hf : t.files.get? i = some f)
    (hpre : ∀ k g, k < i → t.files.get? k = some g →
       okB (scanFile t.logicalSchema g) = true)
    (he : scanFile t.logicalSchema f = .error e) :
    scan t = .error e ∧ scan t = scan t :=
  ⟨scanGo_first_error t.logicalSchema t.files i f e hf hpre he, rfl⟩

/-- C8 witness: in the reproduction table the offending file surfaced is
the second file, the first offending one in listing order. -/
theorem scan_first_offending_witness :
    scan reproTable =
      .error (.unreconcilable ("code") .utf8 .int64 ("data_int64.parquet")) ∧
    scan reproTable = scan reproTable := by
  refine scan_first_offending_deterministic reproTable 1 ParquetExample.file2
    (.unreconcilable ("code") .utf8 .int64 ("data_int64.parquet")) rfl ?_ rfl
  intro k g hk hg
  have hk0 : k = 0 := by omega
  subst hk0
  have hg2 : some ParquetExample.file1 = some g := hg
  injection hg2 with hg3
  subst hg3
  rfl

/-- C9: in both example programs, once file writing and registration
succeed, main only matches on the query result, prints either the
unexpected-success line or the error, and returns Ok in both cases, so the
process exit is successful whether the scan succeeds or fails. -/
theorem example_main_prints_and_exits_ok (env : ExampleEnv)
    (h1 : okS env.writeFile1 = true) (h2 : okS env.writeFile2 = true)
    (h3 : okS env.registerTable = true) :
    okS (runExampleMain env) = true ∧
    (∀ u, env.queryResult = .ok u →
       runExampleMain env = .ok ("Query succeeded unexpectedly")) ∧
    (∀ e, env.queryResult = .error e →
       runExampleMain env = .ok ("Schema evolution error occurred:\n" ++ e)) := by
  obtain ⟨w1, w2, reg, q⟩ := env
  cases w1 with
  | error e => simp [okS] at h1
  | ok u1 =>
    cases w2 with
    | error e => simp [okS] at h2
    | ok u2 =>
      cases reg with
      | error e => simp [okS] at h3
      | ok u3 =>
        cases q with
        | ok uq =>
          refine ⟨rfl, fun u hq => rfl, fun e hq => ?_⟩
          exact absurd hq (by simp)
        | error e0 =>
          refine ⟨rfl, fun u hq => absurd hq (by simp), fun e hq => ?_⟩
          have heq : e0 = e := by simpa using hq
          subst heq
          rfl

/-- Environment in which setup succeeds and the query fails, as in the
reproduced run. -/
def witnessEnv : ExampleEnv := ⟨.ok (), .ok (), .ok (), .error ("Unreconcilable")⟩

/-- C9 witness: with a failing query, main prints the error line and still
exits successfully. -/
theorem example_main_witness :
    okS (runExampleMain witnessEnv) = true ∧
    (∀ u, witnessEnv.queryResult = .ok u →
       runExampleMain witnessEnv = .ok ("Query succeeded unexpectedly")) ∧
    (∀ e, witnessEnv.queryResult = .error e →
       runExampleMain witnessEnv = .ok ("Schema evolution error occurred:\n" ++ e)) :=
  example_main_prints_and_exits_ok witnessEnv rfl rfl rfl

/-- C10: the two example programs are the same reproduction over two
interchangeable backends: identical schemas (all fields non-nullable),
identical rows, the same explicit unified schema equal to file 1's physical
schema, the same table name, adapter factory and query text; they differ
only in the file format and the written file names. -/
theorem examples_differ_only_in_format :
    ParquetExample.schemaWithStringCode = VortexExample.schemaWithStringCode ∧
    ParquetExample.schemaWithIntCode = VortexExample.schemaWithIntCode ∧
    ParquetExample.rowsWithStringCode = VortexExample.rowsWithStringCode ∧
    ParquetExample.rowsWithIntCode = VortexExample.rowsWithIntCode ∧
    ParquetExample.explicitSchema = VortexExample.explicitSchema ∧
    ParquetExample.explicitSchema = ParquetExample.schemaWithStringCode ∧
    (∀ f ∈ ParquetExample.schemaWithStringCode, f.nullable = false) ∧
    (∀ f ∈ ParquetExample.schemaWithIntCode, f.nullable = false) ∧
    ParquetExample.tableName = VortexExample.tableName ∧
    ParquetExample.queryText = VortexExample.queryText ∧
    ParquetExample.adapterFactory = VortexExample.adapterFactory ∧
    ParquetExample.formatName ≠ VortexExample.formatName ∧
    ParquetExample.file1Path ≠ VortexExample.file1Path ∧
    ParquetExample.file2Path ≠ VortexExample.file2Path := by
  refine ⟨rfl, rfl, rfl, rfl, rfl, rfl, ?_, ?_, rfl, rfl, rfl, ?_, ?_, ?_⟩ <;> decide

end SchemaEvo
